import Mathlib

/-!
Verification of the ml-console HTTP request executor
(`src-tauri/src/lib.rs`): digest challenge parsing, RFC 2617 digest
response computation (`generate_digest_auth`), and the probe/negotiate/
normalize pipeline (`http_request`).

The transport (reqwest's send), the URL parser (the `url` crate) and the
random client nonce are external capabilities of the code; they are
abstracted as explicit parameters (`t`, `parseUrl`, `cnonce`).  Everything
else is translated directly from the Rust source.  MD5 is implemented in
full (RFC 1321) so the digest computation is the real one.
-/

set_option maxRecDepth 1000000

namespace MlConsole

/-! ## MD5 (RFC 1321), executable over byte lists -/

/-- Arithmetic is on 32-bit words, taken mod this constant. -/
def M32 : Nat := 4294967296

/-- The 64 sine-derived additive constants of MD5. -/
def md5K : List Nat := [
  0xd76aa478, 0xe8c7b756, 0x242070db, 0xc1bdceee,
  0xf57c0faf, 0x4787c62a, 0xa8304613, 0xfd469501,
  0x698098d8, 0x8b44f7af, 0xffff5bb1, 0x895cd7be,
  0x6b901122, 0xfd987193, 0xa679438e, 0x49b40821,
  0xf61e2562, 0xc040b340, 0x265e5a51, 0xe9b6c7aa,
  0xd62f105d, 0x02441453, 0xd8a1e681, 0xe7d3fbc8,
  0x21e1cde6, 0xc33707d6, 0xf4d50d87, 0x455a14ed,
  0xa9e3e905, 0xfcefa3f8, 0x676f02d9, 0x8d2a4c8a,
  0xfffa3942, 0x8771f681, 0x6d9d6122, 0xfde5380c,
  0xa4beea44, 0x4bdecfa9, 0xf6bb4b60, 0xbebfbc70,
  0x289b7ec6, 0xeaa127fa, 0xd4ef3085, 0x04881d05,
  0xd9d4d039, 0xe6db99e5, 0x1fa27cf8, 0xc4ac5665,
  0xf4292244, 0x432aff97, 0xab9423a7, 0xfc93a039,
  0x655b59c3, 0x8f0ccc92, 0xffeff47d, 0x85845dd1,
  0x6fa87e4f, 0xfe2ce6e0, 0xa3014314, 0x4e0811a1,
  0xf7537e82, 0xbd3af235, 0x2ad7d2bb, 0xeb86d391]

/-- The per-round left-rotation amounts of MD5. -/
def md5S : List Nat := [
  7, 12, 17, 22, 7, 12, 17, 22, 7, 12, 17, 22, 7, 12, 17, 22,
  5, 9, 14, 20, 5, 9, 14, 20, 5, 9, 14, 20, 5, 9, 14, 20,
  4, 11, 16, 23, 4, 11, 16, 23, 4, 11, 16, 23, 4, 11, 16, 23,
  6, 10, 15, 21, 6, 10, 15, 21, 6, 10, 15, 21, 6, 10, 15, 21]

/-- The four 32-bit registers of the MD5 state. -/
structure MD5State where
  a : Nat
  b : Nat
  c : Nat
  d : Nat
deriving DecidableEq

/-- Initial MD5 register values. -/
def md5Init : MD5State := ⟨0x67452301, 0xefcdab89, 0x98badcfe, 0x10325476⟩

/-- One of the 64 MD5 operations; `M` gives the message words of the
current block. -/
def md5Step (M : Nat → Nat) (st : MD5State) (i : Nat) : MD5State :=
  let f :=
    if i < 16 then (st.b &&& st.c) ||| ((st.b ^^^ 0xffffffff) &&& st.d)
    else if i < 32 then (st.d &&& st.b) ||| ((st.d ^^^ 0xffffffff) &&& st.c)
    else if i < 48 then st.b ^^^ st.c ^^^ st.d
    else st.c ^^^ (st.b ||| (st.d ^^^ 0xffffffff))
  let g :=
    if i < 16 then i
    else if i < 32 then (5 * i + 1) % 16
    else if i < 48 then (3 * i + 5) % 16
    else (7 * i) % 16
  let tmp := (f + st.a + md5K.getD i 0 + M g) % M32
  let s := md5S.getD i 0
  let rot := ((tmp <<< s) % M32) ||| (tmp >>> (32 - s))
  ⟨st.d, (st.b + rot) % M32, st.b, st.c⟩

/-- Little-endian 32-bit word `g` of a 64-byte block. -/
def leWord (block : List Nat) (g : Nat) : Nat :=
  block.getD (4 * g) 0 + 256 * block.getD (4 * g + 1) 0 +
    65536 * block.getD (4 * g + 2) 0 + 16777216 * block.getD (4 * g + 3) 0

/-- Run the 64 MD5 operations on one block and add the result into the
incoming state. -/
def md5ProcessBlock (st : MD5State) (block : List Nat) : MD5State :=
  let r := (List.range 64).foldl (md5Step (leWord block)) st
  ⟨(st.a + r.a) % M32, (st.b + r.b) % M32, (st.c + r.c) % M32, (st.d + r.d) % M32⟩

/-- The `n` low-order bytes of `x`, least significant first. -/
def toLEBytes : Nat → Nat → List Nat
  | 0, _ => []
  | n + 1, x => (x % 256) :: toLEBytes n (x / 256)

/-- MD5 padding: a `0x80` byte, zeros to 56 mod 64, then the bit length
as a 64-bit little-endian quantity. -/
def md5Pad (msg : List Nat) : List Nat :=
  msg ++ [0x80] ++ List.replicate ((119 - msg.length % 64) % 64) 0 ++
    toLEBytes 8 ((msg.length * 8) % (2 ^ 64))

/-- Split a byte list into 64-byte blocks; the fuel argument (at least the
list length) keeps the recursion structural. -/
def chunks64Go : Nat → List Nat → List (List Nat)
  | 0, _ => []
  | _, [] => []
  | n + 1, x :: xs => ((x :: xs).take 64) :: chunks64Go n ((x :: xs).drop 64)

/-- Split a byte list into 64-byte blocks. -/
def chunks64 (l : List Nat) : List (List Nat) := chunks64Go l.length l

/-- The 16-byte MD5 digest of a byte list. -/
def md5Bytes (msg : List Nat) : List Nat :=
  let fin := (chunks64 (md5Pad msg)).foldl md5ProcessBlock md5Init
  toLEBytes 4 fin.a ++ toLEBytes 4 fin.b ++ toLEBytes 4 fin.c ++ toLEBytes 4 fin.d

/-- Lowercase hexadecimal digit of a nibble: code point 48 + n for
digits, 87 + n (so 97 = `a` at n = 10) for the letters. -/
def hexDigit (n : Nat) : Char :=
  if n < 10 then Char.ofNat (48 + n) else Char.ofNat (87 + n)

/-- Two lowercase hex digits of one byte (zero-padded), as Rust's
`{:x}` formatting of an `md5::Digest` prints each byte. -/
def byteHex (b : Nat) : List Char := [hexDigit (b / 16), hexDigit (b % 16)]

/-- UTF-8 encoding of one code point, as Rust's `str::as_bytes` yields. -/
def utf8EncodeChar (c : Nat) : List Nat :=
  if c < 0x80 then [c]
  else if c < 0x800 then [0xc0 ||| (c >>> 6), 0x80 ||| (c &&& 0x3f)]
  else if c < 0x10000 then
    [0xe0 ||| (c >>> 12), 0x80 ||| ((c >>> 6) &&& 0x3f), 0x80 ||| (c &&& 0x3f)]
  else
    [0xf0 ||| (c >>> 18), 0x80 ||| ((c >>> 12) &&& 0x3f),
      0x80 ||| ((c >>> 6) &&& 0x3f), 0x80 ||| (c &&& 0x3f)]

/-- UTF-8 bytes of a string. -/
def utf8Bytes (s : String) : List Nat :=
  s.data.foldr (fun c acc => utf8EncodeChar c.toNat ++ acc) []

/-- The Rust source's `format!("{:x}", md5::compute(s.as_bytes()))`:
lowercase hex of the MD5 digest of the string's UTF-8 bytes. -/
def md5hex (s : String) : String :=
  String.mk ((md5Bytes (utf8Bytes s)).foldr (fun b acc => byteHex b ++ acc) [])

/-! ## Rust string operations used by the source -/

/-- ASCII uppercase of one character; `str::to_uppercase` restricted to
ASCII, which covers the method keywords the source compares against. -/
def asciiUpperChar (c : Char) : Char :=
  if 97 ≤ c.toNat && c.toNat ≤ 122 then Char.ofNat (c.toNat - 32) else c

/-- The source's `request.method.to_uppercase()` (ASCII fragment). -/
def rustToUppercase (s : String) : String := String.mk (s.data.map asciiUpperChar)

/-- ASCII lowercase of one character. -/
def asciiLowerChar (c : Char) : Char :=
  if 65 ≤ c.toNat && c.toNat ≤ 90 then Char.ofNat (c.toNat + 32) else c

/-- ASCII lowercase of a string (headers compare case-insensitively). -/
def rustToLowercase (s : String) : String := String.mk (s.data.map asciiLowerChar)

/-- Rust `char::is_whitespace` on the ASCII range. -/
def rustIsWhitespace (c : Char) : Bool :=
  c == ' ' || c == '\t' || c == '\n' || c == '\r' || c.toNat == 11 || c.toNat == 12

/-- Drop matching characters from both ends, as Rust's `str::trim` /
`str::trim_matches` do. -/
def trimChars (p : Char → Bool) (l : List Char) : List Char :=
  ((l.dropWhile p).reverse.dropWhile p).reverse

/-- Rust `str::split(',')` on character lists (keeps empty segments). -/
def splitCharGo (c : Char) (cur : List Char) : List Char → List (List Char)
  | [] => [cur.reverse]
  | x :: xs =>
    if x == c then cur.reverse :: splitCharGo c [] xs
    else splitCharGo c (x :: cur) xs

/-- Rust `str::split` on a single character. -/
def splitChar (c : Char) (l : List Char) : List (List Char) := splitCharGo c [] l

/-- Rust `str::split_once`: split at the first occurrence of `c`. -/
def splitOnceChar (c : Char) : List Char → Option (List Char × List Char)
  | [] => none
  | x :: xs =>
    if x == c then some ([], xs)
    else
      match splitOnceChar c xs with
      | some (a, b) => some (x :: a, b)
      | none => none

/-- Remove every non-overlapping occurrence of `pat` (scanning left to
right), with fuel for structural recursion; this is Rust's
`str::replace(pat, "")` for a non-empty pattern. -/
def replaceAllGo (pat : List Char) : Nat → List Char → List Char
  | 0, l => l
  | _ + 1, [] => []
  | n + 1, x :: xs =>
    if pat.isPrefixOf (x :: xs) then replaceAllGo pat n ((x :: xs).drop pat.length)
    else x :: replaceAllGo pat n xs

/-- The source's `www_auth.replace("Digest ", "")`: every occurrence of
the pattern is removed, not only a leading one. -/
def rustReplace (s pat : String) : String :=
  String.mk (replaceAllGo pat.data s.data.length s.data)

/-- Rust `str::starts_with` on strings. -/
def strStartsWith (s pre : String) : Bool := List.isPrefixOf pre.data s.data

/-! ## Digest challenge parser and digest response calculator -/

/-- Insertion into an association list with `HashMap::insert` semantics:
an existing binding of the key is overwritten, otherwise the pair is
appended. -/
def insertOverride (m : List (String × String)) (k v : String) :
    List (String × String) :=
  match m with
  | [] => [(k, v)]
  | (k1, v1) :: rest =>
    if k1 == k then (k, v) :: rest else (k1, v1) :: insertOverride rest k v

/-- The body of the challenge-parsing loop of `generate_digest_auth`
(lib.rs:37-42), on one comma-segment: trim the segment, split it at its
first `'='` (`none` when there is no `'='`, which the loop skips), trim
the key of whitespace, trim the value of whitespace and then of all
surrounding `'"'` characters (`trim_matches('"')`). -/
def challengeKV (part : List Char) : Option (String × String) :=
  let part := trimChars rustIsWhitespace part
  match splitOnceChar '=' part with
  | some (key, value) =>
    some (String.mk (trimChars rustIsWhitespace key),
      String.mk (trimChars (fun c => c == '"') (trimChars rustIsWhitespace value)))
  | none => none

/-- One iteration of the challenge-parsing loop: insert the segment's
key/value pair into the map, or leave the map unchanged when the segment
has no `'='`. -/
def challengeInsert (m : List (String × String)) (part : List Char) :
    List (String × String) :=
  match challengeKV part with
  | some kv => insertOverride m kv.1 kv.2
  | none => m

/-- The challenge-parsing loop of `generate_digest_auth` (lib.rs:32-43):
remove every `"Digest "` occurrence (`replace`), split on `','`, and for
each segment insert the key/value pair of `challengeKV` into the map
(segments without an `'='` are skipped). -/
def parseChallenge (www_auth : String) : List (String × String) :=
  let auth_str := rustReplace www_auth "Digest "
  (splitChar ',' auth_str.data).foldl challengeInsert []

/-- Path and raw query of a parsed URL; what `url::Url` provides to
`generate_digest_auth`. -/
structure UrlParts where
  path : String
  query : Option String
deriving DecidableEq

/-- The digest URI of lib.rs:51-54: the path, with `?query` appended
when a query string is present. -/
def digestUri (u : UrlParts) : String :=
  match u.query with
  | some q => u.path ++ "?" ++ q
  | none => u.path

/-- HA1 of lib.rs:61-62: `hex(MD5(username:realm:password))`. -/
def digestHA1 (username realm password : String) : String :=
  md5hex (username ++ ":" ++ realm ++ ":" ++ password)

/-- HA2 of lib.rs:65-66: `hex(MD5(method:uri))`. -/
def digestHA2 (method uri : String) : String :=
  md5hex (method ++ ":" ++ uri)

/-- The response hash of lib.rs:69-75: the six-part form when `qop` is
non-empty, the three-part form otherwise. -/
def digestResponseValue (qop h1 nonce nc cnonce h2 : String) : String :=
  if !qop.isEmpty then
    md5hex (h1 ++ ":" ++ nonce ++ ":" ++ nc ++ ":" ++ cnonce ++ ":" ++ qop ++ ":" ++ h2)
  else
    md5hex (h1 ++ ":" ++ nonce ++ ":" ++ h2)

/-- `generate_digest_auth` (lib.rs:29-95).  `parseUrl` abstracts the
`url` crate (`none` = parse failure; the crate's error text inside the
`Invalid URL: {e}` message is abstracted away) and `cnonce` abstracts the
random `format!("{:x}", rand::random::<u64>())` client nonce. -/
def generate_digest_auth (parseUrl : String → Option UrlParts) (cnonce : String)
    (username password method url www_auth : String) : Except String String :=
  let challenge := parseChallenge www_auth
  let realm := (List.lookup "realm" challenge).getD ""
  let nonce := (List.lookup "nonce" challenge).getD ""
  let qop := (List.lookup "qop" challenge).getD ""
  match parseUrl url with
  | none => Except.error "Invalid URL"
  | some urlObj =>
    let uri := digestUri urlObj
    let nc := "00000001"
    let ha1 := digestHA1 username realm password
    let ha2 := digestHA2 method uri
    let response := digestResponseValue qop ha1 nonce nc cnonce ha2
    let header :=
      "Digest username=\"" ++ username ++ "\", realm=\"" ++ realm ++
        "\", nonce=\"" ++ nonce ++ "\", uri=\"" ++ uri ++
        "\", response=\"" ++ response ++ "\""
    let header :=
      if !qop.isEmpty then
        header ++ ", qop=" ++ qop ++ ", nc=" ++ nc ++ ", cnonce=\"" ++ cnonce ++ "\""
      else header
    let header :=
      match List.lookup "opaque" challenge with
      | some opq => header ++ ", opaque=\"" ++ opq ++ "\""
      | none => header
    Except.ok header

/-! ## The `http_request` command (lib.rs:97-175)

The transport is an explicit function from the request that is put on the
wire to either a raw response or a transport error string.  Alongside the
final result we record the list of requests handed to the transport, in
order, so that claims about what is and is not sent are statable. -/

/-- The input shape of the `http_request` command (struct `HttpRequest`).
Caller headers are a list of pairs (iteration order of the Rust
`HashMap` is abstracted as the list order). -/
structure HttpRequest where
  url : String
  method : String
  headers : Option (List (String × String))
  body : Option String
  username : Option String
  password : Option String
deriving DecidableEq

/-- The output shape of the command (struct `HttpResponse`). -/
structure HttpResponse where
  status : Nat
  headers : List (String × String)
  body : String
  success : Bool
deriving DecidableEq

/-- The authentication carried by an outbound request: nothing, the
`basic_auth(username, password)` credential, or a literal
`Authorization` header value produced by the digest calculator. -/
inductive Auth where
  | noAuth : Auth
  | basic (u p : String) : Auth
  | digest (v : String) : Auth
deriving DecidableEq

/-- One request as handed to the transport: what `req_builder` holds at
`send()` time. -/
structure SentRequest where
  method : String
  url : String
  headers : List (String × String)
  body : Option String
  auth : Auth
deriving DecidableEq

deriving instance DecidableEq for Except

/-- A raw transport response: numeric status, header list in iteration
order (a `none` value is one `to_str()` cannot decode as text), and the
body-read outcome. -/
structure RawResponse where
  status : Nat
  headers : List (String × Option String)
  bodyText : Except String String
deriving DecidableEq

/-- The method gate of lib.rs:101-107: the uppercased method must be one
of GET, POST, PUT, DELETE. -/
def methodOk (m : String) : Bool :=
  let u := rustToUppercase m
  u == "GET" || u == "POST" || u == "PUT" || u == "DELETE"

/-- The request as built before authentication: caller method, URL,
headers and body, and no credential (lib.rs:101-121). -/
def baseOf (req : HttpRequest) : SentRequest :=
  { method := req.method, url := req.url, headers := req.headers.getD [],
    body := req.body, auth := Auth.noAuth }

/-- `headers().get(WWW_AUTHENTICATE)`: the first header whose name
matches case-insensitively; the inner option is the `to_str()` outcome. -/
def findHeader (hs : List (String × Option String)) (name : String) :
    Option (Option String) :=
  match hs with
  | [] => none
  | (k, v) :: rest =>
    if rustToLowercase k == name then some v else findHeader rest name

/-- The authentication negotiation of lib.rs:123-147: when both
credentials are present, send the built request once as a probe; on
transport failure fall back to Basic, on a 401 with a `Digest` challenge
attach the computed digest header, otherwise leave the request as built.
Returns the final request and the list of probe requests sent. -/
def negotiate (parseUrl : String → Option UrlParts)
    (t : SentRequest → Except String RawResponse) (cnonce : String)
    (req : HttpRequest) : SentRequest × List SentRequest :=
  match req.username, req.password with
  | some u, some p =>
    match t (baseOf req) with
    | Except.ok presp =>
      let final :=
        if presp.status == 401 then
          match findHeader presp.headers "www-authenticate" with
          | some (some authStr) =>
            if strStartsWith authStr "Digest" then
              match generate_digest_auth parseUrl cnonce u p req.method req.url authStr with
              | Except.ok d => { baseOf req with auth := Auth.digest d }
              | Except.error _ => baseOf req
            else baseOf req
          | _ => baseOf req
        else baseOf req
      (final, [baseOf req])
    | Except.error _ => ({ baseOf req with auth := Auth.basic u p }, [baseOf req])
  | _, _ => (baseOf req, [])

/-- Collect raw response headers into the output map (lib.rs:151-155):
undecodable values become `""` via `unwrap_or("")`, later entries of the
same name overwrite earlier ones. -/
def collectHeaders (hs : List (String × Option String)) : List (String × String) :=
  hs.foldl (fun m kv => insertOverride m kv.1 (kv.2.getD "")) []

/-- The unconditional CORS inserts of lib.rs:163-166. -/
def corsHeaders (m : List (String × String)) : List (String × String) :=
  insertOverride
    (insertOverride
      (insertOverride m "Access-Control-Allow-Origin" "*")
      "Access-Control-Allow-Methods" "GET, POST, OPTIONS")
    "Access-Control-Allow-Headers" "Content-Type"

/-- The response normalization of lib.rs:149-174: a transport error
becomes `RequestFailed`, a body-read error becomes `BodyReadFailed`,
otherwise the status, augmented headers, body text and the
`200 <= status < 300` success flag are returned. -/
def finishRequest (r : Except String RawResponse) : Except String HttpResponse :=
  match r with
  | Except.error e => Except.error ("HTTP request failed: " ++ e)
  | Except.ok resp =>
    match resp.bodyText with
    | Except.error e => Except.error ("Failed to read response body: " ++ e)
    | Except.ok body =>
      Except.ok
        { status := resp.status,
          headers := corsHeaders (collectHeaders resp.headers),
          body := body,
          success := decide (200 ≤ resp.status) && decide (resp.status < 300) }

/-- The whole `http_request` command.  The first component is the value
returned to the caller; the second is every request handed to the
transport, in order (probe first when one is sent, the real request
last). -/
def http_request_run (parseUrl : String → Option UrlParts)
    (t : SentRequest → Except String RawResponse) (cnonce : String)
    (req : HttpRequest) : Except String HttpResponse × List SentRequest :=
  if methodOk req.method then
    let n := negotiate parseUrl t cnonce req
    (finishRequest (t n.1), n.2 ++ [n.1])
  else
    (Except.error ("Unsupported HTTP method: " ++ req.method), [])

/-! ## The challenge parser as the spec describes it (for claim C4) -/

/-- Strip exactly one layer of surrounding `'"'` characters: remove the
first and last character when the value has length at least two and both
are `'"'`. -/
def stripOneQuoteLayer (l : List Char) : List Char :=
  if 2 ≤ l.length ∧ l.head? = some '"' ∧ l.getLast? = some '"' then
    (l.drop 1).dropLast
  else l

/-- The challenge parser exactly as claim C4 words it (for comparison
with `parseChallenge`, which is translated from the code): strip only a
LEADING `"Digest "` prefix, split on `','`, split each segment at the
first `'='` (segments without one are skipped), trim the key of
whitespace, trim the value of whitespace and then of exactly one layer
of surrounding `'"'` characters. -/
def specChallengeParse (www_auth : String) : List (String × String) :=
  let auth_str :=
    if strStartsWith www_auth "Digest " then String.mk (www_auth.data.drop 7)
    else www_auth
  (splitChar ',' auth_str.data).foldl
    (fun m part =>
      match splitOnceChar '=' part with
      | some (key, value) =>
        insertOverride m (String.mk (trimChars rustIsWhitespace key))
          (String.mk (stripOneQuoteLayer (trimChars rustIsWhitespace value)))
      | none => m)
    []

/-- The challenge parser as claim C4 reads after amendment: every
occurrence of the substring `"Digest "` is removed (not only a leading
prefix), each comma-segment is trimmed and split at its first `'='`
(segments without one are skipped), the key is trimmed of whitespace,
the value is trimmed of whitespace and then of ALL leading and trailing
`'"'` characters, and the pairs are collected into the map in order with
later duplicates overwriting. -/
def amendedChallengeParse (www_auth : String) : List (String × String) :=
  ((splitChar ',' (rustReplace www_auth "Digest ").data).filterMap challengeKV).foldl
    (fun m kv => insertOverride m kv.1 kv.2) []

/-- The value of the last occurrence of key `k` in a raw header list,
`none` when `k` does not occur. -/
def lastHeaderValue (k : String) : List (String × Option String) → Option (Option String)
  | [] => none
  | (k1, v) :: rest =>
    match lastHeaderValue k rest with
    | some r => some r
    | none => if k1 == k then some v else none

/-! ## Concrete transports and requests used by the witnesses -/

/-- A URL parser that rejects every URL. -/
def noUrl : String → Option UrlParts := fun _ => none

/-- A 401 response carrying a Basic challenge. -/
def demoRaw401Basic : RawResponse :=
  ⟨401, [("www-authenticate", some "Basic realm=\"x\"")], Except.ok "denied"⟩

/-- A transport that always answers the Basic-challenge 401. -/
def demoT401Basic : SentRequest → Except String RawResponse :=
  fun _ => Except.ok demoRaw401Basic

/-- A credentialed GET request. -/
def demoReqGet : HttpRequest := ⟨"http://h/a", "GET", none, none, some "u", some "pw"⟩

/-- A transport that always fails at the transport level. -/
def demoTFail : SentRequest → Except String RawResponse :=
  fun _ => Except.error "connect error"

/-- A credentialed POST request with a body. -/
def demoReqPost : HttpRequest :=
  ⟨"http://h/a", "POST", none, some "b", some "u", some "pw"⟩

/-- A 401 response carrying a Digest challenge. -/
def demoRaw401Digest : RawResponse :=
  ⟨401, [("www-authenticate", some "Digest realm=\"r\", nonce=\"n\", qop=\"auth\"")],
    Except.ok "denied"⟩

/-- A transport that always answers the Digest-challenge 401. -/
def demoT401Digest : SentRequest → Except String RawResponse :=
  fun _ => Except.ok demoRaw401Digest

/-- A credentialed GET request whose URL the demo parser rejects. -/
def demoReqBadUrl : HttpRequest := ⟨"bad url", "GET", none, none, some "u", some "pw"⟩

/-- A 200 response with one undecodable header value. -/
def demoRaw200 : RawResponse :=
  ⟨200, [("x-bin", none), ("server", some "nginx")], Except.ok "hi"⟩

/-- A transport that always answers the 200 response. -/
def demoT200 : SentRequest → Except String RawResponse :=
  fun _ => Except.ok demoRaw200

/-- An uncredentialed GET request. -/
def demoReqPlain : HttpRequest := ⟨"http://h/a", "GET", none, none, none, none⟩

/-- A GET request carrying a password but no username. -/
def demoReqHalfCreds : HttpRequest :=
  ⟨"http://h/a", "GET", none, none, none, some "pw"⟩

/-! ## Helper lemmas -/

theorem lookup_insertOverride (m : List (String × String)) (key k v : String) :
    List.lookup k (insertOverride m key v) =
      if key == k then some v else List.lookup k m := by
  induction m with
  | nil =>
    by_cases h : key = k
    · subst h; simp [insertOverride, List.lookup]
    · have h1 : (key == k) = false := by simp [h]
      have h2 : (k == key) = false := by simp [Ne.symm h]
      simp [insertOverride, List.lookup, h1, h2]
  | cons hd tl ih =>
    obtain ⟨k2, v2⟩ := hd
    simp only [insertOverride]
    by_cases h2 : k2 = key
    · subst h2
      by_cases h : k2 = k
      · subst h; simp [List.lookup]
      · have hb : (k2 == k) = false := by simp [h]
        have hb2 : (k == k2) = false := by simp [Ne.symm h]
        simp [List.lookup, hb, hb2]
    · have hb2 : (k2 == key) = false := by simp [h2]
      simp only [hb2, Bool.false_eq_true, if_false, List.lookup, ih]
      by_cases hk2 : k = k2
      · subst hk2
        have hkey : (key == k) = false := by simp [Ne.symm h2]
        simp [hkey]
      · have hb3 : (k == k2) = false := by simp [hk2]
        simp [hb3]

theorem lookup_corsHeaders_origin (m : List (String × String)) :
    List.lookup "Access-Control-Allow-Origin" (corsHeaders m) = some "*" := by
  simp [corsHeaders, lookup_insertOverride]

theorem lookup_corsHeaders_methods (m : List (String × String)) :
    List.lookup "Access-Control-Allow-Methods" (corsHeaders m) =
      some "GET, POST, OPTIONS" := by
  simp [corsHeaders, lookup_insertOverride]

theorem lookup_corsHeaders_headers (m : List (String × String)) :
    List.lookup "Access-Control-Allow-Headers" (corsHeaders m) =
      some "Content-Type" := by
  simp [corsHeaders, lookup_insertOverride]

theorem lookup_corsHeaders_other (m : List (String × String)) (k : String)
    (h1 : k ≠ "Access-Control-Allow-Origin")
    (h2 : k ≠ "Access-Control-Allow-Methods")
    (h3 : k ≠ "Access-Control-Allow-Headers") :
    List.lookup k (corsHeaders m) = List.lookup k m := by
  have e1 : ("Access-Control-Allow-Origin" == k) = false := by
    simpa [beq_iff_eq] using fun h => h1 h.symm
  have e2 : ("Access-Control-Allow-Methods" == k) = false := by
    simpa [beq_iff_eq] using fun h => h2 h.symm
  have e3 : ("Access-Control-Allow-Headers" == k) = false := by
    simpa [beq_iff_eq] using fun h => h3 h.symm
  simp [corsHeaders, lookup_insertOverride, e1, e2, e3]

theorem lookup_collectHeaders_go (k : String) (hs : List (String × Option String)) :
    ∀ m, List.lookup k
        (hs.foldl (fun m kv => insertOverride m kv.1 (kv.2.getD "")) m) =
      match lastHeaderValue k hs with
      | some v => some (v.getD "")
      | none => List.lookup k m := by
  induction hs with
  | nil => intro m; simp [lastHeaderValue]
  | cons hd tl ih =>
    intro m
    obtain ⟨k1, v1⟩ := hd
    simp only [List.foldl_cons, ih, lastHeaderValue]
    cases h : lastHeaderValue k tl with
    | some r => simp
    | none =>
      simp only [lookup_insertOverride]
      by_cases hk : k1 == k <;> simp [hk]

theorem lookup_collectHeaders (k : String) (hs : List (String × Option String)) :
    List.lookup k (collectHeaders hs) =
      match lastHeaderValue k hs with
      | some v => some (v.getD "")
      | none => none := by
  have := lookup_collectHeaders_go k hs []
  simpa [collectHeaders] using this

theorem foldl_challengeInsert_filterMap (l : List (List Char)) :
    ∀ acc, l.foldl challengeInsert acc =
      (l.filterMap challengeKV).foldl (fun m kv => insertOverride m kv.1 kv.2) acc := by
  induction l with
  | nil => intro acc; rfl
  | cons hd tl ih =>
    intro acc
    cases h : challengeKV hd <;> simp [List.filterMap_cons, challengeInsert, h, ih]

theorem finishRequest_ok_iff (r : Except String RawResponse) (resp : HttpResponse) :
    finishRequest r = Except.ok resp ↔
      ∃ raw body, r = Except.ok raw ∧ raw.bodyText = Except.ok body ∧
        resp = { status := raw.status,
                 headers := corsHeaders (collectHeaders raw.headers),
                 body := body,
                 success := decide (200 ≤ raw.status) && decide (raw.status < 300) } := by
  cases r with
  | error e => simp [finishRequest]
  | ok raw =>
    cases hb : raw.bodyText with
    | error e => simp [finishRequest, hb]
    | ok b =>
      simp only [finishRequest, hb]
      constructor
      · intro h
        injection h with h2
        exact ⟨raw, b, rfl, hb, h2.symm⟩
      · rintro ⟨raw2, b2, hr, hb2, hresp⟩
        injection hr with hr2
        subst hr2
        rw [hb] at hb2
        injection hb2 with hb3
        subst hb3
        rw [hresp]

theorem run_methodOk (pu : String → Option UrlParts)
    (t : SentRequest → Except String RawResponse) (c : String)
    (req : HttpRequest) (hm : methodOk req.method = true) :
    http_request_run pu t c req =
      (finishRequest (t (negotiate pu t c req).1),
       (negotiate pu t c req).2 ++ [(negotiate pu t c req).1]) := by
  simp [http_request_run, hm]

theorem run_ok_of_pair (pu : String → Option UrlParts)
    (t : SentRequest → Except String RawResponse) (c : String)
    (req : HttpRequest) (resp : HttpResponse) (sends : List SentRequest)
    (h : http_request_run pu t c req = (Except.ok resp, sends)) :
    methodOk req.method = true ∧
    sends = (negotiate pu t c req).2 ++ [(negotiate pu t c req).1] ∧
    finishRequest (t (negotiate pu t c req).1) = Except.ok resp := by
  by_cases hm : methodOk req.method
  · rw [run_methodOk pu t c req hm] at h
    injection h with h1 h2
    exact ⟨hm, h2.symm, h1⟩
  · simp only [http_request_run, hm] at h
    injection h with h1 h2
    exact absurd h1 (by simp)

theorem run_ok_headers (pu : String → Option UrlParts)
    (t : SentRequest → Except String RawResponse) (c : String)
    (req : HttpRequest) (resp : HttpResponse) (sends : List SentRequest)
    (lastReq : SentRequest) (raw : RawResponse)
    (h : http_request_run pu t c req = (Except.ok resp, sends))
    (hl : sends.getLast? = some lastReq)
    (ht : t lastReq = Except.ok raw) :
    resp.headers = corsHeaders (collectHeaders raw.headers) := by
  obtain ⟨hm, hsends, hfin⟩ := run_ok_of_pair pu t c req resp sends h
  have hlast : lastReq = (negotiate pu t c req).1 := by
    rw [hsends, List.getLast?_concat] at hl
    injection hl with h2
    exact h2.symm
  subst hlast
  rw [ht] at hfin
  obtain ⟨raw2, body, hr, hb, hresp⟩ := (finishRequest_ok_iff _ _).mp hfin
  injection hr with hr2
  subst hr2
  rw [hresp]

/-! ## Claim theorems -/

/-- C1: the digest computation matches the RFC 2617 reference vector:
with username Mufasa, password "Circle Of Life", method GET, uri
/dir/index.html, realm testrealm@host.com, nonce dcd98b…, qop auth,
nc 00000001 and cnonce 0a4f113b, HA1 is 939e7578ed9e3c518a452acee763bce9,
HA2 is 39aff3a2bab6126f332b942af96d3366, and the response is
6629fae49393a05397450978507c4ef1; moreover `generate_digest_auth` on the
corresponding challenge header emits exactly that response in its
Authorization header. -/
theorem c1_digest_rfc2617_vector :
    digestHA1 "Mufasa" "testrealm@host.com" "Circle Of Life" =
      "939e7578ed9e3c518a452acee763bce9" ∧
    digestHA2 "GET" "/dir/index.html" = "39aff3a2bab6126f332b942af96d3366" ∧
    digestResponseValue "auth"
        (digestHA1 "Mufasa" "testrealm@host.com" "Circle Of Life")
        "dcd98b7102dd2f0e8b11d0f600bfb0c093" "00000001" "0a4f113b"
        (digestHA2 "GET" "/dir/index.html") =
      "6629fae49393a05397450978507c4ef1" ∧
    generate_digest_auth (fun _ => some ⟨"/dir/index.html", none⟩) "0a4f113b"
        "Mufasa" "Circle Of Life" "GET" "http://www.example.org/dir/index.html"
        "Digest realm=\"testrealm@host.com\", nonce=\"dcd98b7102dd2f0e8b11d0f600bfb0c093\", qop=\"auth\", opaque=\"5ccc069c403ebaf9f0171e9517f40e41\"" =
      Except.ok "Digest username=\"Mufasa\", realm=\"testrealm@host.com\", nonce=\"dcd98b7102dd2f0e8b11d0f600bfb0c093\", uri=\"/dir/index.html\", response=\"6629fae49393a05397450978507c4ef1\", qop=auth, nc=00000001, cnonce=\"0a4f113b\", opaque=\"5ccc069c403ebaf9f0171e9517f40e41\"" :=
  ⟨by decide, by decide, by decide, by decide⟩

/-- C4, counterexample: the code's parser does NOT merely strip a leading
`"Digest "` prefix (it removes every occurrence of the substring, so a
quoted value `a Digest b` comes out as `a b`) and does NOT trim exactly
one layer of surrounding quotes (it strips all of them, so `""abc""`
comes out as `abc`); on both inputs it differs from the parser the claim
describes (`specChallengeParse`). -/
theorem c4_counterexample_parser_divergence :
    (List.lookup "realm" (parseChallenge "Digest realm=\"a Digest b\"") =
        some "a b" ∧
      List.lookup "realm" (specChallengeParse "Digest realm=\"a Digest b\"") =
        some "a Digest b") ∧
    (List.lookup "nonce" (parseChallenge "Digest nonce=\"\"abc\"\"") =
        some "abc" ∧
      List.lookup "nonce" (specChallengeParse "Digest nonce=\"\"abc\"\"") =
        some "\"abc\"") ∧
    parseChallenge "Digest realm=\"a Digest b\"" ≠
      specChallengeParse "Digest realm=\"a Digest b\"" :=
  ⟨⟨by decide, by decide⟩, ⟨by decide, by decide⟩, by decide⟩

/-- C4, amended: the parser removes every occurrence of the substring
`"Digest "` (not only a leading prefix), splits the remainder on `','`,
trims each segment of whitespace, splits each segment on the first `'='`,
trims the key of whitespace, trims the value of whitespace and then of
all leading and trailing `'"'` characters, silently skips segments
without an `'='`, and produces a directive-name-to-value mapping with no
error on malformed or empty input (shown on the reference challenge, the
empty string, and a garbage input). -/
theorem c4_amended_parser_contract :
    (∀ s, parseChallenge s = amendedChallengeParse s) ∧
    parseChallenge "Digest realm=\"testrealm@host.com\", nonce=\"dcd98b7102dd2f0e8b11d0f600bfb0c093\", qop=\"auth\"" =
      [("realm", "testrealm@host.com"),
       ("nonce", "dcd98b7102dd2f0e8b11d0f600bfb0c093"), ("qop", "auth")] ∧
    parseChallenge "" = [] ∧
    parseChallenge "garbage with no equals, ,," = [] := by
  refine ⟨fun s => ?_, by decide, by decide, by decide⟩
  simp only [parseChallenge, amendedChallengeParse]
  exact foldl_challengeInsert_filterMap _ []

/-- C6: a request whose method, uppercased, is not GET, POST, PUT or
DELETE is rejected with the `UnsupportedMethod` error and nothing is
handed to the transport. -/
theorem c6_unsupported_method_no_network (pu : String → Option UrlParts)
    (t : SentRequest → Except String RawResponse) (c : String)
    (req : HttpRequest) (h : methodOk req.method = false) :
    http_request_run pu t c req =
      (Except.error ("Unsupported HTTP method: " ++ req.method), []) := by
  simp [http_request_run, h]

/-- C6 witness: a PATCH request fails with `UnsupportedMethod` and an
empty transport trace. -/
theorem c6_unsupported_method_no_network_witness :
    methodOk "PATCH" = false ∧
    http_request_run (fun _ => none)
        (fun _ => Except.ok ⟨200, [], Except.ok ""⟩) "cn"
        ⟨"http://h/a", "PATCH", none, none, none, none⟩ =
      (Except.error ("Unsupported HTTP method: " ++ "PATCH"), []) :=
  ⟨by decide,
    c6_unsupported_method_no_network (fun _ => none)
      (fun _ => Except.ok ⟨200, [], Except.ok ""⟩) "cn"
      ⟨"http://h/a", "PATCH", none, none, none, none⟩ (by decide)⟩

/-- C7: every response the executor returns satisfies
`success = (200 ≤ status < 300)`, where `status` is the status of the
real request's response. -/
theorem c7_success_iff_2xx (pu : String → Option UrlParts)
    (t : SentRequest → Except String RawResponse) (c : String)
    (req : HttpRequest) (resp : HttpResponse)
    (h : (http_request_run pu t c req).1 = Except.ok resp) :
    resp.success = true ↔ (200 ≤ resp.status ∧ resp.status < 300) := by
  by_cases hm : methodOk req.method
  · rw [run_methodOk pu t c req hm] at h
    obtain ⟨raw, body, hr, hb, hresp⟩ := (finishRequest_ok_iff _ _).mp h
    subst hresp
    simp [Bool.and_eq_true, decide_eq_true_iff]
  · simp [http_request_run, hm] at h

/-- C7 witness: a concrete 404 response has `success = false` and a 204
response has `success = true`, consistent with the range check. -/
theorem c7_success_iff_2xx_witness :
    (http_request_run (fun _ => none)
        (fun _ => Except.ok ⟨404, [], Except.ok "nf"⟩) "cn"
        ⟨"http://h/a", "GET", none, none, none, none⟩).1 =
      Except.ok ⟨404, corsHeaders [], "nf", false⟩ ∧
    ((⟨404, corsHeaders [], "nf", false⟩ : HttpResponse).success = true ↔
      (200 ≤ (⟨404, corsHeaders [], "nf", false⟩ : HttpResponse).status ∧
        (⟨404, corsHeaders [], "nf", false⟩ : HttpResponse).status < 300)) :=
  ⟨by decide,
    c7_success_iff_2xx (fun _ => none)
      (fun _ => Except.ok ⟨404, [], Except.ok "nf"⟩) "cn"
      ⟨"http://h/a", "GET", none, none, none, none⟩
      ⟨404, corsHeaders [], "nf", false⟩ (by decide)⟩

/-- C2: with both credentials present and a probe that succeeds, if the
probe's status is not 401, or it is 401 but the `WWW-Authenticate` header
is absent, undecodable as text, or does not start with `Digest`, the real
request is sent with no authentication attached: the transport sees the
probe and then the unchanged base request, whose `auth` is `noAuth`. -/
theorem c2_non_digest_challenge_no_auth (pu : String → Option UrlParts)
    (t : SentRequest → Except String RawResponse) (c : String)
    (req : HttpRequest) (u p : String) (presp : RawResponse)
    (hm : methodOk req.method = true)
    (hu : req.username = some u) (hp : req.password = some p)
    (ht : t (baseOf req) = Except.ok presp)
    (hcase : presp.status ≠ 401 ∨
      findHeader presp.headers "www-authenticate" = none ∨
      findHeader presp.headers "www-authenticate" = some none ∨
      ∃ s, findHeader presp.headers "www-authenticate" = some (some s) ∧
        strStartsWith s "Digest" = false) :
    (http_request_run pu t c req).2 = [baseOf req, baseOf req] ∧
    (baseOf req).auth = Auth.noAuth ∧
    (http_request_run pu t c req).1 = finishRequest (t (baseOf req)) := by
  have hneg : negotiate pu t c req = (baseOf req, [baseOf req]) := by
    rcases hcase with h | h | h | ⟨s, hs, hd⟩
    · have hb : (presp.status == 401) = false := by simpa using h
      simp [negotiate, hu, hp, ht, hb]
    · simp [negotiate, hu, hp, ht, h]
    · simp [negotiate, hu, hp, ht, h]
    · simp [negotiate, hu, hp, ht, hs, hd]
  rw [run_methodOk pu t c req hm, hneg]
  exact ⟨rfl, rfl, rfl⟩

/-- C2 witness: a probe answered 401 with `WWW-Authenticate: Basic
realm="x"` leads to the real request being the unauthenticated base
request. -/
theorem c2_non_digest_challenge_no_auth_witness :
    methodOk demoReqGet.method = true ∧
    demoT401Basic (baseOf demoReqGet) = Except.ok demoRaw401Basic ∧
    (http_request_run noUrl demoT401Basic "cn" demoReqGet).2 =
      [baseOf demoReqGet, baseOf demoReqGet] ∧
    (baseOf demoReqGet).auth = Auth.noAuth :=
  ⟨by decide, rfl,
    (c2_non_digest_challenge_no_auth noUrl demoT401Basic "cn" demoReqGet
      "u" "pw" demoRaw401Basic (by decide) rfl rfl rfl
      (Or.inr (Or.inr (Or.inr ⟨"Basic realm=\"x\"", by decide, by decide⟩)))).1,
    (c2_non_digest_challenge_no_auth noUrl demoT401Basic "cn" demoReqGet
      "u" "pw" demoRaw401Basic (by decide) rfl rfl rfl
      (Or.inr (Or.inr (Or.inr ⟨"Basic realm=\"x\"", by decide, by decide⟩)))).2.1⟩

/-- C3: with both credentials present, if the probe send fails at the
transport level, exactly one probe is sent (no retry) and the real
request carries the Basic credential built from the username and
password. -/
theorem c3_transport_failure_basic_fallback (pu : String → Option UrlParts)
    (t : SentRequest → Except String RawResponse) (c : String)
    (req : HttpRequest) (u p e : String)
    (hm : methodOk req.method = true)
    (hu : req.username = some u) (hp : req.password = some p)
    (ht : t (baseOf req) = Except.error e) :
    (http_request_run pu t c req).2 =
      [baseOf req, { baseOf req with auth := Auth.basic u p }] ∧
    (http_request_run pu t c req).1 =
      finishRequest (t { baseOf req with auth := Auth.basic u p }) := by
  have hneg : negotiate pu t c req =
      ({ baseOf req with auth := Auth.basic u p }, [baseOf req]) := by
    simp [negotiate, hu, hp, ht]
  rw [run_methodOk pu t c req hm, hneg]
  exact ⟨rfl, rfl⟩

/-- C3 witness: a probe that fails with a connection error yields a trace
of the probe followed by the same request with Basic credentials. -/
theorem c3_transport_failure_basic_fallback_witness :
    methodOk demoReqPost.method = true ∧
    demoTFail (baseOf demoReqPost) = Except.error "connect error" ∧
    (http_request_run noUrl demoTFail "cn" demoReqPost).2 =
      [baseOf demoReqPost,
       { baseOf demoReqPost with auth := Auth.basic "u" "pw" }] :=
  ⟨by decide, rfl,
    (c3_transport_failure_basic_fallback noUrl demoTFail "cn" demoReqPost
      "u" "pw" "connect error" (by decide) rfl rfl rfl).1⟩

/-- C5: the digest URI is the parsed URL's path, with `?` and the raw
query appended when a query is present; when the URL does not parse the
digest calculator returns the invalid-URL error, the negotiator attaches
no authentication header, and the real request still proceeds, its
outcome taken from the transport (the digest failure is not surfaced). -/
theorem c5_invalid_url_silent_noauth (pu : String → Option UrlParts)
    (t : SentRequest → Except String RawResponse) (c : String)
    (req : HttpRequest) (u p : String) (presp : RawResponse) (authStr : String)
    (hm : methodOk req.method = true)
    (hu : req.username = some u) (hp : req.password = some p)
    (ht : t (baseOf req) = Except.ok presp)
    (hst : presp.status = 401)
    (hh : findHeader presp.headers "www-authenticate" = some (some authStr))
    (hd : strStartsWith authStr "Digest" = true)
    (hurl : pu req.url = none) :
    (∀ pth q, digestUri ⟨pth, some q⟩ = pth ++ "?" ++ q ∧
      digestUri ⟨pth, none⟩ = pth) ∧
    generate_digest_auth pu c u p req.method req.url authStr =
      Except.error "Invalid URL" ∧
    (http_request_run pu t c req).2 = [baseOf req, baseOf req] ∧
    (baseOf req).auth = Auth.noAuth ∧
    (http_request_run pu t c req).1 = finishRequest (t (baseOf req)) := by
  have hgen : generate_digest_auth pu c u p req.method req.url authStr =
      Except.error "Invalid URL" := by
    simp [generate_digest_auth, hurl]
  have hneg : negotiate pu t c req = (baseOf req, [baseOf req]) := by
    have hb : (presp.status == 401) = true := by simp [hst]
    simp [negotiate, hu, hp, ht, hb, hh, hd, hgen]
  rw [run_methodOk pu t c req hm, hneg]
  exact ⟨fun pth q => ⟨rfl, rfl⟩, hgen, rfl, rfl, rfl⟩

/-- C5 witness: with a URL the parser rejects and a 401 Digest challenge,
the digest calculator errors and both transport sends are the
unauthenticated base request. -/
theorem c5_invalid_url_silent_noauth_witness :
    methodOk demoReqBadUrl.method = true ∧
    noUrl demoReqBadUrl.url = none ∧
    generate_digest_auth noUrl "cn" "u" "pw" "GET" "bad url"
        "Digest realm=\"r\", nonce=\"n\", qop=\"auth\"" =
      Except.error "Invalid URL" ∧
    (http_request_run noUrl demoT401Digest "cn" demoReqBadUrl).2 =
      [baseOf demoReqBadUrl, baseOf demoReqBadUrl] :=
  ⟨by decide, rfl,
    (c5_invalid_url_silent_noauth noUrl demoT401Digest "cn" demoReqBadUrl
      "u" "pw" demoRaw401Digest "Digest realm=\"r\", nonce=\"n\", qop=\"auth\""
      (by decide) rfl rfl rfl rfl (by decide) (by decide) rfl).2.1,
    (c5_invalid_url_silent_noauth noUrl demoT401Digest "cn" demoReqBadUrl
      "u" "pw" demoRaw401Digest "Digest realm=\"r\", nonce=\"n\", qop=\"auth\""
      (by decide) rfl rfl rfl rfl (by decide) (by decide) rfl).2.2.1⟩

/-- C8: the headers of every returned response contain the three CORS
headers with their fixed values, overriding whatever the server sent
under those exact names, and every other header is copied through from
the collected response headers unchanged. -/
theorem c8_cors_headers_override (pu : String → Option UrlParts)
    (t : SentRequest → Except String RawResponse) (c : String)
    (req : HttpRequest) (resp : HttpResponse) (sends : List SentRequest)
    (lastReq : SentRequest) (raw : RawResponse)
    (h : http_request_run pu t c req = (Except.ok resp, sends))
    (hl : sends.getLast? = some lastReq)
    (ht : t lastReq = Except.ok raw) :
    List.lookup "Access-Control-Allow-Origin" resp.headers = some "*" ∧
    List.lookup "Access-Control-Allow-Methods" resp.headers =
      some "GET, POST, OPTIONS" ∧
    List.lookup "Access-Control-Allow-Headers" resp.headers =
      some "Content-Type" ∧
    ∀ k, k ≠ "Access-Control-Allow-Origin" →
      k ≠ "Access-Control-Allow-Methods" → k ≠ "Access-Control-Allow-Headers" →
      List.lookup k resp.headers = List.lookup k (collectHeaders raw.headers) := by
  have hh := run_ok_headers pu t c req resp sends lastReq raw h hl ht
  rw [hh]
  exact ⟨lookup_corsHeaders_origin _, lookup_corsHeaders_methods _,
    lookup_corsHeaders_headers _,
    fun k h1 h2 h3 => lookup_corsHeaders_other _ k h1 h2 h3⟩

/-- C8 witness: a server that itself sends
`Access-Control-Allow-Origin: deny` still yields `*` in the output, and
an unrelated header passes through. -/
theorem c8_cors_headers_override_witness :
    http_request_run noUrl
        (fun _ => Except.ok ⟨200, [("Access-Control-Allow-Origin", some "deny"), ("server", some "nginx")], Except.ok "hi"⟩)
        "cn" demoReqPlain =
      (Except.ok ⟨200, corsHeaders (collectHeaders [("Access-Control-Allow-Origin", some "deny"), ("server", some "nginx")]), "hi", true⟩,
       [baseOf demoReqPlain]) ∧
    [baseOf demoReqPlain].getLast? = some (baseOf demoReqPlain) ∧
    List.lookup "Access-Control-Allow-Origin"
        (⟨200, corsHeaders (collectHeaders [("Access-Control-Allow-Origin", some "deny"), ("server", some "nginx")]), "hi", true⟩ : HttpResponse).headers =
      some "*" ∧
    List.lookup "server"
        (⟨200, corsHeaders (collectHeaders [("Access-Control-Allow-Origin", some "deny"), ("server", some "nginx")]), "hi", true⟩ : HttpResponse).headers =
      List.lookup "server"
        (collectHeaders [("Access-Control-Allow-Origin", some "deny"), ("server", some "nginx")]) :=
  ⟨by decide, by decide,
    (c8_cors_headers_override noUrl
      (fun _ => Except.ok ⟨200, [("Access-Control-Allow-Origin", some "deny"), ("server", some "nginx")], Except.ok "hi"⟩)
      "cn" demoReqPlain
      ⟨200, corsHeaders (collectHeaders [("Access-Control-Allow-Origin", some "deny"), ("server", some "nginx")]), "hi", true⟩
      [baseOf demoReqPlain] (baseOf demoReqPlain)
      ⟨200, [("Access-Control-Allow-Origin", some "deny"), ("server", some "nginx")], Except.ok "hi"⟩
      (by decide) (by decide) rfl).1,
    (c8_cors_headers_override noUrl
      (fun _ => Except.ok ⟨200, [("Access-Control-Allow-Origin", some "deny"), ("server", some "nginx")], Except.ok "hi"⟩)
      "cn" demoReqPlain
      ⟨200, corsHeaders (collectHeaders [("Access-Control-Allow-Origin", some "deny"), ("server", some "nginx")]), "hi", true⟩
      [baseOf demoReqPlain] (baseOf demoReqPlain)
      ⟨200, [("Access-Control-Allow-Origin", some "deny"), ("server", some "nginx")], Except.ok "hi"⟩
      (by decide) (by decide) rfl).2.2.2 "server" (by decide) (by decide) (by decide)⟩

/-- C9: a request carrying only one of username and password behaves
exactly like the same request with neither: the run is identical, no
probe is sent (at most the single real request appears in the trace),
and nothing sent carries authentication. -/
theorem c9_partial_credentials_ignored (pu : String → Option UrlParts)
    (t : SentRequest → Except String RawResponse) (c : String)
    (req : HttpRequest)
    (h : req.username = none ∨ req.password = none) :
    http_request_run pu t c req =
      http_request_run pu t c
        { req with username := none, password := none } ∧
    ((http_request_run pu t c req).2 = [] ∨
      (http_request_run pu t c req).2 = [baseOf req]) ∧
    ∀ sr ∈ (http_request_run pu t c req).2, sr.auth = Auth.noAuth := by
  have hneg : negotiate pu t c req = (baseOf req, []) := by
    rcases h with h | h
    · simp [negotiate, h]
    · cases hu : req.username <;> simp [negotiate, h, hu]
  have hneg2 : negotiate pu t c { req with username := none, password := none } =
      (baseOf req, []) := by
    simp [negotiate]
    rfl
  by_cases hm : methodOk req.method
  · have hm2 : methodOk ({ req with username := none, password := none } : HttpRequest).method = true := hm
    rw [run_methodOk pu t c req hm, run_methodOk pu t c _ hm2, hneg, hneg2]
    refine ⟨rfl, Or.inr rfl, ?_⟩
    intro sr hsr
    simp at hsr
    rw [hsr]
    rfl
  · have hm2 : ¬ methodOk ({ req with username := none, password := none } : HttpRequest).method = true := hm
    simp only [http_request_run, hm, hm2, if_false]
    exact ⟨rfl, Or.inl rfl, fun sr hsr => absurd hsr (by simp)⟩

/-- C9 witness: a request with a password but no username runs exactly
like the credential-free request; its trace is the single real request,
sent without authentication. -/
theorem c9_partial_credentials_ignored_witness :
    demoReqHalfCreds.username = none ∧
    http_request_run noUrl demoT200 "cn" demoReqHalfCreds =
      http_request_run noUrl demoT200 "cn"
        { demoReqHalfCreds with username := none, password := none } ∧
    (http_request_run noUrl demoT200 "cn" demoReqHalfCreds).2 =
      [baseOf demoReqHalfCreds] :=
  ⟨rfl,
    (c9_partial_credentials_ignored noUrl demoT200 "cn" demoReqHalfCreds
      (Or.inl rfl)).1,
    by decide⟩

/-- C10: a response header whose value cannot be decoded as text appears
in the returned headers with the empty string as its value (shown for a
header that is not one of the CORS names and whose last occurrence is the
undecodable one), rather than the call failing or the entry being
omitted. -/
theorem c10_undecodable_header_empty_value (pu : String → Option UrlParts)
    (t : SentRequest → Except String RawResponse) (c : String)
    (req : HttpRequest) (resp : HttpResponse) (sends : List SentRequest)
    (lastReq : SentRequest) (raw : RawResponse) (k : String)
    (h : http_request_run pu t c req = (Except.ok resp, sends))
    (hl : sends.getLast? = some lastReq)
    (ht : t lastReq = Except.ok raw)
    (h1 : k ≠ "Access-Control-Allow-Origin")
    (h2 : k ≠ "Access-Control-Allow-Methods")
    (h3 : k ≠ "Access-Control-Allow-Headers")
    (hv : lastHeaderValue k raw.headers = some none) :
    List.lookup k resp.headers = some "" := by
  have hh := run_ok_headers pu t c req resp sends lastReq raw h hl ht
  rw [hh, lookup_corsHeaders_other _ k h1 h2 h3, lookup_collectHeaders, hv]
  rfl

/-- C10 witness: the `x-bin` header of the demo 200 response has an
undecodable value and comes out as the empty string. -/
theorem c10_undecodable_header_empty_value_witness :
    http_request_run noUrl demoT200 "cn" demoReqPlain =
      (Except.ok ⟨200, corsHeaders (collectHeaders demoRaw200.headers), "hi", true⟩,
       [baseOf demoReqPlain]) ∧
    lastHeaderValue "x-bin" demoRaw200.headers = some none ∧
    List.lookup "x-bin"
        (⟨200, corsHeaders (collectHeaders demoRaw200.headers), "hi", true⟩ : HttpResponse).headers =
      some "" :=
  ⟨by decide, by decide,
    c10_undecodable_header_empty_value noUrl demoT200 "cn" demoReqPlain
      ⟨200, corsHeaders (collectHeaders demoRaw200.headers), "hi", true⟩
      [baseOf demoReqPlain] (baseOf demoReqPlain) demoRaw200 "x-bin"
      (by decide) (by decide) rfl (by decide) (by decide) (by decide) (by decide)⟩

end MlConsole
